import Mathlib

/-!
Verification development for the data-etl repository, file
src/source_map_1/extract_kml.py.  The Python source is shallowly embedded:
Python strings are modelled as Lean String / List Char, Python float values
as exact rationals (IEEE rounding is abstracted away; every literal in the
claims is exactly representable), a Python value that may be None or a str
as Option String (none = Python None), and the mutable parser / merge state
as explicit state records.  Regex-based text operations are modelled by
executable scanning functions that implement the same leftmost-match
semantics as the Python re calls on the patterns used in the source.
-/

/-- ASCII whitespace as recognized by Python's str.strip and the regex
class backslash-s.  The Unicode extras are abstracted away; all inputs of
interest are ASCII. -/
def isPyWS (c : Char) : Bool :=
  c == ' ' || c == '\t' || c == '\n' || c == '\r' || c == '\x0b' || c == '\x0c'

/-- Python str.strip(): drop leading and trailing whitespace. -/
def stripPyWS (cs : List Char) : List Char :=
  ((cs.dropWhile isPyWS).reverse.dropWhile isPyWS).reverse

/-- Python str.split(sep) for a one-character separator: keeps empty pieces,
and the empty string splits to one empty piece. -/
def splitOnChar (sep : Char) : List Char → List (List Char)
  | [] => [[]]
  | c :: rest =>
    let r := splitOnChar sep rest
    if c = sep then [] :: r
    else
      match r with
      | [] => [[c]]
      | h :: t => (c :: h) :: t

/-- Python str.endswith, used by the source as element.tag.endswith(...). -/
def pyEndsWith (s pat : String) : Bool :=
  pat.data.reverse.isPrefixOf s.data.reverse

/-- Decimal digit test. -/
def isDigitCh (c : Char) : Bool :=
  decide ('0' ≤ c) && decide (c ≤ '9')

/-- Numeric value of a list of decimal digits. -/
def digitsToNat (ds : List Char) : Nat :=
  ds.foldl (fun n c => 10 * n + (c.toNat - 48)) 0

/-- Exponent part of a float literal: empty (exponent 0) or e/E, an optional
sign and a nonempty digit run consuming the rest of the input. -/
def parseExpPart : List Char → Option Int
  | [] => some 0
  | c :: rest =>
    if c = 'e' ∨ c = 'E' then
      match rest with
      | '+' :: ds =>
        if ds.isEmpty then none
        else if ds.all isDigitCh then some (Int.ofNat (digitsToNat ds)) else none
      | '-' :: ds =>
        if ds.isEmpty then none
        else if ds.all isDigitCh then some (-(Int.ofNat (digitsToNat ds))) else none
      | ds =>
        if ds.isEmpty then none
        else if ds.all isDigitCh then some (Int.ofNat (digitsToNat ds)) else none
    else none

/-- Unsigned part of a float literal: digits with an optional point and
optional exponent, as accepted by CPython float() for finite decimal
literals. -/
def pyFloatCore (cs : List Char) : Option ℚ :=
  let ip := cs.takeWhile isDigitCh
  let rest := cs.dropWhile isDigitCh
  match rest with
  | '.' :: rest2 =>
    let fp := rest2.takeWhile isDigitCh
    let rest3 := rest2.dropWhile isDigitCh
    if ip.isEmpty && fp.isEmpty then none
    else
      match parseExpPart rest3 with
      | some e => some (((digitsToNat ip : ℚ) + (digitsToNat fp : ℚ) / (10 : ℚ) ^ fp.length) * (10 : ℚ) ^ e)
      | none => none
  | _ =>
    if ip.isEmpty then none
    else
      match parseExpPart rest with
      | some e => some ((digitsToNat ip : ℚ) * (10 : ℚ) ^ e)
      | none => none

/-- Model of CPython float(str) on finite decimal literals: optional
surrounding whitespace, optional sign, digits / point / exponent.  The
non-finite literals inf and nan, and digit-group underscores, are outside
the rational value domain of this model and are treated as unparseable;
none of them occur in the claims.  Returns none where Python raises
ValueError. -/
def pythonFloat (cs0 : List Char) : Option ℚ :=
  let cs := stripPyWS cs0
  match cs with
  | '+' :: r => pyFloatCore r
  | '-' :: r => Option.map (fun q : ℚ => -q) (pyFloatCore r)
  | r => pyFloatCore r

/-- KMLParser.parse_coordinates (extract_kml.py lines 35-46).  The argument
is the coordinates element's text, an Option String because ElementTree
yields None for a textless element.  Empty or missing input, fewer than two
comma-separated parts, or a float() failure on either of the first two
parts all degrade to (none, none) - the Python except arm.  On success the
pair is (latitude, longitude) = (float(parts[1]), float(parts[0])). -/
def parse_coordinates (coordText : Option String) : Option ℚ × Option ℚ :=
  match coordText with
  | none => (none, none)
  | some s =>
    if (stripPyWS s.data).isEmpty then (none, none)
    else
      match splitOnChar ',' (stripPyWS s.data) with
      | p0 :: p1 :: _ =>
        match pythonFloat p1, pythonFloat p0 with
        | some la, some lo => (some la, some lo)
        | _, _ => (none, none)
      | _ => (none, none)

/-- Opening CDATA marker of the regex in clean_html_tags. -/
def openCDATA : List Char := ['<', '!', '[', 'C', 'D', 'A', 'T', 'A', '[']

/-- Closing CDATA marker of the regex in clean_html_tags. -/
def closeCDATA : List Char := [']', ']', '>']

/-- Split at the earliest occurrence of marker pat: returns (text before the
match, text after the match), or none when pat does not occur. -/
def splitAtMarker (pat : List Char) : List Char → Option (List Char × List Char)
  | [] => if pat.isEmpty then some ([], []) else none
  | c :: rest =>
    if pat.isPrefixOf (c :: rest) then some ([], (c :: rest).drop pat.length)
    else
      match splitAtMarker pat rest with
      | some p => some (c :: p.1, p.2)
      | none => none

/-- One pass of re.sub on the CDATA pattern with DOTALL: every leftmost,
shortest-match occurrence of an open marker followed by a close marker is
replaced by the text between them; surrounding text is kept.  Fuel is the
initial length, which bounds the number of scanning steps. -/
def cdataSubFuel : Nat → List Char → List Char
  | 0, cs => cs
  | _ + 1, [] => []
  | f + 1, c :: rest =>
    if openCDATA.isPrefixOf (c :: rest) then
      match splitAtMarker closeCDATA ((c :: rest).drop 9) with
      | some p => p.1 ++ cdataSubFuel f p.2
      | none => c :: cdataSubFuel f rest
    else c :: cdataSubFuel f rest

/-- re.sub of the CDATA wrapper pattern, as called in clean_html_tags. -/
def cdataSub (cs : List Char) : List Char := cdataSubFuel cs.length cs

/-- re.sub of the tag pattern: a less-than sign, one or more characters
other than greater-than, then greater-than, removed; every other character
is kept.  Matches the leftmost-match semantics of the Python regex. -/
def stripTagsFuel : Nat → List Char → List Char
  | 0, cs => cs
  | _ + 1, [] => []
  | f + 1, c :: rest =>
    if c = '<' then
      match rest.span (fun x => !(x == '>')) with
      | (mid, '>' :: after) => if mid.isEmpty then c :: stripTagsFuel f rest else stripTagsFuel f after
      | (_, _) => c :: stripTagsFuel f rest
    else c :: stripTagsFuel f rest

/-- Tag removal stage of clean_html_tags. -/
def stripTags (cs : List Char) : List Char := stripTagsFuel cs.length cs

/-- Named entities decoded by the model of html.unescape.  The full
html.unescape table is abstracted to the standard XML/HTML escapes; an
ampersand that starts no listed entity is kept verbatim, which agrees with
html.unescape on every input free of other entity references. -/
def entityTable : List (List Char × Char) :=
  [("amp;".data, '&'), ("lt;".data, '<'), ("gt;".data, '>'),
   ("quot;".data, '"'), ("apos;".data, Char.ofNat 39)]

/-- First listed entity that is a prefix of the input, with the rest of the
input after it. -/
def matchEntity : List (List Char × Char) → List Char → Option (Char × List Char)
  | [], _ => none
  | (pat, ch) :: table, cs =>
    if pat.isPrefixOf cs then some (ch, cs.drop pat.length)
    else matchEntity table cs

/-- Model of html.unescape restricted to the entity table above. -/
def htmlUnescapeFuel : Nat → List Char → List Char
  | 0, cs => cs
  | _ + 1, [] => []
  | f + 1, c :: rest =>
    if c = '&' then
      match matchEntity entityTable rest with
      | some p => p.1 :: htmlUnescapeFuel f p.2
      | none => c :: htmlUnescapeFuel f rest
    else c :: htmlUnescapeFuel f rest

/-- Entity decoding stage of clean_html_tags. -/
def htmlUnescape (cs : List Char) : List Char := htmlUnescapeFuel cs.length cs

mutual
/-- re.sub of one-or-more whitespace by one space: a maximal whitespace run
becomes a single space. -/
def pySubWS : List Char → List Char
  | [] => []
  | c :: rest => if isPyWS c then ' ' :: pySubWSRun rest else c :: pySubWS rest
/-- Inside a whitespace run whose single space is already emitted. -/
def pySubWSRun : List Char → List Char
  | [] => []
  | c :: rest => if isPyWS c then pySubWSRun rest else c :: pySubWS rest
end

/-- KMLParser.clean_html_tags (extract_kml.py lines 26-33).  Falsy input
(None or the empty string) gives the empty string; otherwise the CDATA
substitution, then tag removal, then entity decoding, then whitespace
collapsing and strip. -/
def clean_html_tags (text : Option String) : String :=
  match text with
  | none => ""
  | some s =>
    if s.data.isEmpty then ""
    else String.mk (stripPyWS (pySubWS (htmlUnescape (stripTags (cdataSub s.data)))))

/-- Whitespace collapsing and trimming alone (the final stage of
clean_html_tags), used to state what the sanitizer does to plain text. -/
def wsNormalize (s : String) : String := String.mk (stripPyWS (pySubWS s.data))

mutual
/-- Parsed XML element as exposed by xml.etree.ElementTree: a qualified tag,
the text directly inside the element (None, i.e. none, when the element has
no text), and the list of child elements in document order. -/
inductive Element where
  | mk (tag : String) (text : Option String) (children : ElementList)
/-- Children of an Element in document order. -/
inductive ElementList where
  | nil
  | cons (e : Element) (rest : ElementList)
end

/-- Tag of an element. -/
def Element.tag : Element → String
  | .mk t _ _ => t

/-- Text of an element (none models Python None). -/
def Element.text : Element → Option String
  | .mk _ tx _ => tx

/-- Children of an element. -/
def Element.children : Element → ElementList
  | .mk _ _ ch => ch

/-- Qualified tag name as ElementTree renders it: "\x7bnamespace\x7dlocal",
for the parser's ns map kml -> http://www.opengis.net/kml/2.2. -/
def kmlTag (t : String) : String := "\x7bhttp://www.opengis.net/kml/2.2\x7d" ++ t

/-- element.find(tag): first direct child with the given qualified tag. -/
def findChild (t : String) : ElementList → Option Element
  | .nil => none
  | .cons e rest => if e.tag = t then some e else findChild t rest

/-- The idiom x_elem.text if x_elem is not None else "" used throughout
process_element: some "" when the child is absent, otherwise its text
(which is none when the child element has no text). -/
def childTextOrEmpty (t : String) (ch : ElementList) : Option String :=
  match findChild t ch with
  | some c => c.text
  | none => some ""

mutual
/-- element.find(".//tag") over a list of elements: first match in document
order, searching each element and its whole subtree before its later
siblings. -/
def findDescList (t : String) : ElementList → Option Element
  | .nil => none
  | .cons e rest =>
    match findDescElem t e with
    | some r => some r
    | none => findDescList t rest
/-- Descendant-or-self search of one element, document order. -/
def findDescElem (t : String) : Element → Option Element
  | .mk tg tx ch =>
    if tg = t then some (Element.mk tg tx ch) else findDescList t ch
end

/-- One output row of the extractor (the dict built at lines 63-85).
latitude and longitude are rationals standing for Python floats; name and
style_url are Option String because ElementTree can hand the code None for
a textless element and the code stores that value unchanged. -/
structure Record where
  folder : String
  name : Option String
  description : String
  style_url : Option String
  latitude : Option ℚ
  longitude : Option ℚ
  source : String
deriving DecidableEq, Repr

/-- Python truthiness of a str-or-None value: None and "" are falsy. -/
def pyTruthy : Option String → Bool
  | none => false
  | some s => !s.data.isEmpty

/-- Rendering of a str-or-None value inside an f-string: None prints as the
four characters None. -/
def pyStr : Option String → String
  | none => "None"
  | some s => s

mutual
/-- process_element (extract_kml.py lines 55-91).  A Folder-suffixed tag
reads its name child, extends the folder path and recurses; a
Placemark-suffixed tag emits one record; any other tag recurses with the
path unchanged.  folder_path is a Python str-or-None value: the f-string
branch runs when it is truthy, otherwise the child path is the folder name
value itself. -/
def process_element (source_mid : String) (e : Element) (folder_path : Option String) : List Record :=
  match e with
  | .mk tag _ children =>
    if pyEndsWith tag "Folder" then
      let folder_name := childTextOrEmpty (kmlTag "name") children
      let current_folder_path :=
        if pyTruthy folder_path then some (pyStr folder_path ++ "/" ++ pyStr folder_name)
        else folder_name
      process_children source_mid children current_folder_path
    else if pyEndsWith tag "Placemark" then
      let coords :=
        match findDescList (kmlTag "coordinates") children with
        | some c => parse_coordinates c.text
        | none => ((none : Option ℚ), (none : Option ℚ))
      [{ folder := if pyTruthy folder_path then pyStr folder_path else "根目錄",
         name := childTextOrEmpty (kmlTag "name") children,
         description := clean_html_tags (childTextOrEmpty (kmlTag "description") children),
         style_url := childTextOrEmpty (kmlTag "styleUrl") children,
         latitude := coords.1,
         longitude := coords.2,
         source := source_mid }]
    else
      process_children source_mid children folder_path
/-- The for-child-in-element loop of process_element, in document order. -/
def process_children (source_mid : String) (es : ElementList) (folder_path : Option String) : List Record :=
  match es with
  | .nil => []
  | .cons c rest => process_element source_mid c folder_path ++ process_children source_mid rest folder_path
end

/-- Mutable state of a KMLParser instance: the accumulated placemark list.
The constant namespace map is omitted. -/
structure KMLParserState where
  placemarks : List Record
deriving DecidableEq, Repr

/-- KMLParser.extract_placemarks_from_kml (lines 48-96).  The document is
none when ET.parse raises (missing file or malformed XML): the method has
already reset self.placemarks and returns [].  On success it traverses the
root with the empty folder path and returns the accumulated list, which is
also the new instance state. -/
def extract_placemarks_from_kml (st : KMLParserState) (doc : Option Element) (source_mid : String) : KMLParserState × List Record :=
  let st1 : KMLParserState := { st with placemarks := [] }
  match doc with
  | none => (st1, [])
  | some root =>
    let recs := process_element source_mid root (some "")
    ({ st1 with placemarks := recs }, recs)

/-- Identity key of a record for deduplication: the (folder, name) pair read
back from the record dict (lines 311 and 320). -/
abbrev RKey := String × Option String

/-- The key (placemark.get('folder', ''), placemark.get('name', '')); both
keys are always present in a record, so the defaults never apply. -/
def recordKey (p : Record) : RKey := (p.folder, p.name)

/-- Per-source outcome printed by download_multiple_maps_to_csv: download
failure (line 334), no placemark data (line 332), primary map added whole
(line 313), or a secondary map with found/added/skipped counts (line 330). -/
inductive SourceReport where
  | downloadFailed
  | noData
  | primarySource (found : Nat)
  | secondarySource (found : Nat) (added : Nat) (skipped : Nat)
deriving DecidableEq, Repr

/-- State threaded through download_multiple_maps_to_csv: the merged output
list all_placemarks, the identity-key set primary_map_records (a Python set,
modelled as a list queried by membership), and the per-source reports. -/
structure MergeState where
  all_placemarks : List Record
  primary_map_records : List RKey
  reports : List SourceReport
deriving DecidableEq, Repr

/-- The for-placemark loop of a non-primary source (lines 319-328): returns
the records appended in order together with the added and skipped counts.
The key set is only read, never extended, in this loop. -/
def secondaryLoop (keys : List RKey) : List Record → List Record × Nat × Nat
  | [] => ([], 0, 0)
  | p :: rest =>
    let r := secondaryLoop keys rest
    if recordKey p ∈ keys then (r.1, r.2.1, r.2.2 + 1)
    else (p :: r.1, r.2.1 + 1, r.2.2)

/-- One iteration of the source loop of download_multiple_maps_to_csv
(lines 290-334) for the 1-based source index i.  fetched is none when
download_from_maps_url failed, otherwise the extracted placemark list.  An
empty list takes the no-data branch.  Only the first source (i = 1) seeds
primary_map_records; every later source is filtered against that set. -/
def processSource (st : MergeState) (i : Nat) (fetched : Option (List Record)) : MergeState :=
  match fetched with
  | none => { st with reports := st.reports ++ [SourceReport.downloadFailed] }
  | some placemarks =>
    if placemarks.isEmpty then { st with reports := st.reports ++ [SourceReport.noData] }
    else if i = 1 then
      { all_placemarks := st.all_placemarks ++ placemarks,
        primary_map_records := st.primary_map_records ++ placemarks.map recordKey,
        reports := st.reports ++ [SourceReport.primarySource placemarks.length] }
    else
      let r := secondaryLoop st.primary_map_records placemarks
      { all_placemarks := st.all_placemarks ++ r.1,
        primary_map_records := st.primary_map_records,
        reports := st.reports ++ [SourceReport.secondarySource placemarks.length r.2.1 r.2.2] }

/-- The enumerate(map_sources, 1) loop. -/
def mergeAux (st : MergeState) (i : Nat) : List (Option (List Record)) → MergeState
  | [] => st
  | s :: rest => mergeAux (processSource st i s) (i + 1) rest

/-- State before the loop: empty output, empty key set (lines 286-287). -/
def initialMergeState : MergeState :=
  { all_placemarks := [], primary_map_records := [], reports := [] }

/-- GoogleMapsKMLDownloader.download_multiple_maps_to_csv restricted to its
in-memory merge: each entry of the list is one configured source, already
reduced to the records its download and extraction produced (none when the
download failed).  Per the state-reset property of the extractor, the shared
parser instance adds no coupling between sources. -/
def download_multiple_maps_to_csv (sources : List (Option (List Record))) : MergeState :=
  mergeAux initialMergeState 1 sources

/-- The merged output list of a run. -/
def mergedRecords (sources : List (Option (List Record))) : List Record :=
  (download_multiple_maps_to_csv sources).all_placemarks

/-- Modelled from the spec's words for claim C1 (spec section 4.5 step 2):
the per-record loop of a non-primary source where a non-duplicate record is
appended AND its key is added to the running identity-key set. -/
def perClaimLoop (keys : List RKey) : List Record → List Record × List RKey
  | [] => ([], keys)
  | p :: rest =>
    if recordKey p ∈ keys then perClaimLoop keys rest
    else
      let r := perClaimLoop (keys ++ [recordKey p]) rest
      (p :: r.1, r.2)

/-- Modelled from the spec's words for claim C1: fold of the claim's
per-record rule over the non-primary sources, threading the growing key
set from source to source. -/
def perClaimSources (keys : List RKey) : List (Option (List Record)) → List Record
  | [] => []
  | s :: rest =>
    let r := perClaimLoop keys (s.getD [])
    r.1 ++ perClaimSources r.2 rest

/-- Modelled from the spec's words for claim C1: the whole merge as the
claim describes it - key set seeded from the first source, then each later
record skipped when its key is in the running set and otherwise appended
with its key added to the running set. -/
def mergedRecordsPerClaim : List (Option (List Record)) → List Record
  | [] => []
  | s1 :: rest =>
    let prim := s1.getD []
    prim ++ perClaimSources (prim.map recordKey) rest

/-- Modelled from the claim's words for claim C7: a sanitizer that unwraps
exactly one outer CDATA wrapper if present, keeping only the inner content,
then runs the remaining stages unchanged. -/
def clean_html_tags_claim (text : Option String) : String :=
  match text with
  | none => ""
  | some s =>
    if s.data.isEmpty then ""
    else
      let cs := s.data
      let unwrapped :=
        if openCDATA.isPrefixOf cs && closeCDATA.isSuffixOf cs && decide (12 ≤ cs.length)
        then (cs.drop 9).take (cs.length - 12)
        else cs
      String.mk (stripPyWS (pySubWS (htmlUnescape (stripTags unwrapped))))

mutual
/-- Number of Placemark-tagged nodes anywhere in the tree (the claim's
count of leaf nodes in the document). -/
def countPlacemarkNodes : Element → Nat
  | .mk t _ ch => (if pyEndsWith t "Placemark" then 1 else 0) + countPlacemarkNodesList ch
/-- Placemark-tagged node count of a list of subtrees. -/
def countPlacemarkNodesList : ElementList → Nat
  | .nil => 0
  | .cons e rest => countPlacemarkNodes e + countPlacemarkNodesList rest
end

mutual
/-- Number of outermost Placemark-tagged nodes: a Placemark counts one and
its subtree is not searched further, matching the traversal's stop. -/
def countTopLeaves : Element → Nat
  | .mk t _ ch => if pyEndsWith t "Placemark" then 1 else countTopLeavesList ch
/-- Outermost Placemark count of a list of subtrees. -/
def countTopLeavesList : ElementList → Nat
  | .nil => 0
  | .cons e rest => countTopLeaves e + countTopLeavesList rest
end

/-- Number of records with a given identity key in a list. -/
def countKey (k : RKey) (l : List Record) : Nat :=
  l.countP (fun p => decide (recordKey p = k))

/-- The secondary-source loop keeps exactly the records whose key is not in
the key set, in order, and counts kept and skipped records. -/
theorem secondaryLoop_eq (keys : List RKey) (ps : List Record) :
    secondaryLoop keys ps =
      (ps.filter (fun p => decide (recordKey p ∉ keys)),
       (ps.filter (fun p => decide (recordKey p ∉ keys))).length,
       (ps.filter (fun p => decide (recordKey p ∈ keys))).length) := by
  induction ps with
  | nil => simp [secondaryLoop]
  | cons p rest ih =>
    simp only [secondaryLoop, ih]
    by_cases h : recordKey p ∈ keys <;> simp [h, List.filter_cons]

/-- After the primary iteration, every later source only appends the records
whose key misses the (now frozen) key set, and never changes that set. -/
theorem mergeAux_secondary (rest : List (Option (List Record))) :
    ∀ (st : MergeState) (i : Nat), 2 ≤ i →
      (mergeAux st i rest).all_placemarks =
        st.all_placemarks ++
          rest.flatMap (fun s => (s.getD []).filter
            (fun p => decide (recordKey p ∉ st.primary_map_records))) ∧
      (mergeAux st i rest).primary_map_records = st.primary_map_records := by
  induction rest with
  | nil => intro st i h; simp [mergeAux]
  | cons s rest ih =>
    intro st i h
    simp only [mergeAux]
    have h2 : 2 ≤ i + 1 := by omega
    obtain ⟨ha, hp⟩ := ih (processSource st i s) (i + 1) h2
    have hno1 : ¬ i = 1 := by omega
    cases s with
    | none =>
      refine ⟨?_, ?_⟩
      · rw [ha]; simp [processSource]
      · rw [hp]; simp [processSource]
    | some ps =>
      by_cases hps : ps.isEmpty
      · have hnil : ps = [] := List.isEmpty_iff.mp hps
        subst hnil
        refine ⟨?_, ?_⟩
        · rw [ha]; simp [processSource]
        · rw [hp]; simp [processSource]
      · refine ⟨?_, ?_⟩
        · rw [ha]; simp [processSource, hps, hno1, secondaryLoop_eq, List.append_assoc]
        · rw [hp]; simp [processSource, hps, hno1]

/-- The first loop iteration turns the initial state into the first source's
records and keys, whatever the outcome of that source. -/
theorem processSource_first (s1 : Option (List Record)) :
    (processSource initialMergeState 1 s1).all_placemarks = s1.getD [] ∧
    (processSource initialMergeState 1 s1).primary_map_records = (s1.getD []).map recordKey := by
  cases s1 with
  | none => simp [processSource, initialMergeState]
  | some ps =>
    by_cases hps : ps.isEmpty
    · have hnil : ps = [] := List.isEmpty_iff.mp hps
      subst hnil
      simp [processSource, initialMergeState]
    · simp [processSource, hps, initialMergeState]

/-- Closed form of the whole merge: output is the first source's records
followed by, per later source in order, its records whose key is not a key
of the first source; the key set ends as exactly the first source's keys. -/
theorem mergedRecords_closed (s1 : Option (List Record)) (rest : List (Option (List Record))) :
    mergedRecords (s1 :: rest) =
      (s1.getD []) ++
        rest.flatMap (fun s => (s.getD []).filter
          (fun p => decide (recordKey p ∉ (s1.getD []).map recordKey))) ∧
    (download_multiple_maps_to_csv (s1 :: rest)).primary_map_records =
      (s1.getD []).map recordKey := by
  unfold mergedRecords download_multiple_maps_to_csv
  simp only [mergeAux]
  obtain ⟨h1, h2⟩ := mergeAux_secondary rest (processSource initialMergeState 1 s1) 2 (le_refl 2)
  obtain ⟨g1, g2⟩ := processSource_first s1
  rw [h1, h2, g1, g2]
  exact ⟨rfl, rfl⟩

/-- The records and keys a merge run produces do not depend on the reports
accumulated so far (the loop only ever appends to the report list). -/
theorem processSource_core (st₁ st₂ : MergeState) (i : Nat) (s : Option (List Record))
    (ha : st₁.all_placemarks = st₂.all_placemarks)
    (hp : st₁.primary_map_records = st₂.primary_map_records) :
    (processSource st₁ i s).all_placemarks = (processSource st₂ i s).all_placemarks ∧
    (processSource st₁ i s).primary_map_records = (processSource st₂ i s).primary_map_records := by
  cases s with
  | none => simp [processSource, ha, hp]
  | some ps =>
    simp only [processSource]
    by_cases h0 : ps.isEmpty
    · simp [h0, ha, hp]
    · by_cases h1 : i = 1
      · simp [h0, h1, ha, hp]
      · simp [h0, h1, ha, hp]

/-- Lifting of processSource_core over a whole run. -/
theorem mergeAux_core (rest : List (Option (List Record))) :
    ∀ (st₁ st₂ : MergeState) (i : Nat),
      st₁.all_placemarks = st₂.all_placemarks →
      st₁.primary_map_records = st₂.primary_map_records →
      (mergeAux st₁ i rest).all_placemarks = (mergeAux st₂ i rest).all_placemarks ∧
      (mergeAux st₁ i rest).primary_map_records = (mergeAux st₂ i rest).primary_map_records := by
  induction rest with
  | nil => intro st₁ st₂ i ha hp; exact ⟨ha, hp⟩
  | cons s rest ih =>
    intro st₁ st₂ i ha hp
    simp only [mergeAux]
    obtain ⟨ha', hp'⟩ := processSource_core st₁ st₂ i s ha hp
    exact ih (processSource st₁ i s) (processSource st₂ i s) (i + 1) ha' hp'

/-- A download failure and an empty extraction leave identical output
whatever sources sit before and after them. -/
theorem mergeAux_failed_vs_empty (xs : List (Option (List Record))) :
    ∀ (ys : List (Option (List Record))) (st : MergeState) (i : Nat),
      (mergeAux st i (xs ++ none :: ys)).all_placemarks =
      (mergeAux st i (xs ++ some [] :: ys)).all_placemarks := by
  induction xs with
  | nil =>
    intro ys st i
    simp only [List.nil_append, mergeAux]
    exact (mergeAux_core ys (processSource st i none) (processSource st i (some []))
      (i + 1) (by simp [processSource]) (by simp [processSource])).1
  | cons x xs ih =>
    intro ys st i
    simp only [List.cons_append, mergeAux]
    exact ih ys (processSource st i x) (i + 1)

/-- Sample record held by the primary source in the merge examples. -/
def recPrimary : Record :=
  { folder := "F", name := some "A", description := "", style_url := some "",
    latitude := none, longitude := none, source := "m1" }

/-- Sample record of the second source; its key is absent from the primary. -/
def recSecond : Record :=
  { folder := "F", name := some "B", description := "", style_url := some "",
    latitude := none, longitude := none, source := "m2" }

/-- Sample record of the third source with the same identity key as
recSecond but a different source tag. -/
def recThird : Record :=
  { folder := "F", name := some "B", description := "", style_url := some "",
    latitude := none, longitude := none, source := "m3" }

/-- C1, counterexample.  Run the merge on a primary plus two non-primary
sources whose records share one identity key that the primary lacks.  The
code appends both (its key set is never extended past the primary seed),
while the claim's rule - append and add the key to the running set - would
discard the third source's record.  So the claim as stated is false of the
code. -/
theorem mergeC1_counterexample :
    mergedRecords [some [recPrimary], some [recSecond], some [recThird]] =
      [recPrimary, recSecond, recThird] ∧
    mergedRecordsPerClaim [some [recPrimary], some [recSecond], some [recThird]] =
      [recPrimary, recSecond] ∧
    mergedRecords [some [recPrimary], some [recSecond], some [recThird]] ≠
      mergedRecordsPerClaim [some [recPrimary], some [recSecond], some [recThird]] :=
  ⟨by decide, by decide, by decide⟩

/-- C1, amended: in a merge run, each non-primary record is discarded
(counted as skipped) exactly when its identity key is among the primary
source's keys, and appended otherwise; the running identity-key set is the
primary snapshot and is never extended by non-primary records.  Stated as
the closed form of the run plus the per-source step equation. -/
theorem mergeC1_amended (s1 : Option (List Record)) (rest : List (Option (List Record))) :
    mergedRecords (s1 :: rest) =
      (s1.getD []) ++
        rest.flatMap (fun s => (s.getD []).filter
          (fun p => decide (recordKey p ∉ (s1.getD []).map recordKey))) ∧
    (download_multiple_maps_to_csv (s1 :: rest)).primary_map_records =
      (s1.getD []).map recordKey ∧
    (∀ (st : MergeState) (i : Nat) (ps : List Record), 2 ≤ i → ps ≠ [] →
      processSource st i (some ps) =
        { all_placemarks := st.all_placemarks ++
            ps.filter (fun p => decide (recordKey p ∉ st.primary_map_records)),
          primary_map_records := st.primary_map_records,
          reports := st.reports ++ [SourceReport.secondarySource ps.length
            (ps.filter (fun p => decide (recordKey p ∉ st.primary_map_records))).length
            (ps.filter (fun p => decide (recordKey p ∈ st.primary_map_records))).length] }) := by
  obtain ⟨h1, h2⟩ := mergedRecords_closed s1 rest
  refine ⟨h1, h2, ?_⟩
  intro st i ps hi hps
  have hne : ¬ ps.isEmpty := by
    cases ps with
    | nil => exact absurd rfl hps
    | cons a l => simp
  have hno1 : ¬ i = 1 := by omega
  simp [processSource, hne, hno1, secondaryLoop_eq]

/-- C1 amended, witness: the step equation applied to a concrete secondary
source at index 2. -/
theorem mergeC1_amended_witness :
    processSource initialMergeState 2 (some [recSecond]) =
      { all_placemarks := initialMergeState.all_placemarks ++
          [recSecond].filter (fun p => decide (recordKey p ∉ initialMergeState.primary_map_records)),
        primary_map_records := initialMergeState.primary_map_records,
        reports := initialMergeState.reports ++ [SourceReport.secondarySource [recSecond].length
          ([recSecond].filter (fun p => decide (recordKey p ∉ initialMergeState.primary_map_records))).length
          ([recSecond].filter (fun p => decide (recordKey p ∈ initialMergeState.primary_map_records))).length] } :=
  (mergeC1_amended (some []) []).2.2 initialMergeState 2 [recSecond] (le_refl 2) (by decide)

/-- C2: the skip decision consults only the primary source's keys.  Two
records in two different non-primary sources that share an identity key the
primary lacks are both appended: the merged output holds that key at least
twice.  Non-primary sources are never deduplicated against each other. -/
theorem mergeC2_no_cross_secondary_dedup
    (s1 s t : Option (List Record)) (xs ys zs : List (Option (List Record)))
    (r₁ r₂ : Record)
    (h₁ : r₁ ∈ s.getD []) (h₂ : r₂ ∈ t.getD [])
    (hk : recordKey r₂ = recordKey r₁)
    (hprim : recordKey r₁ ∉ (s1.getD []).map recordKey) :
    2 ≤ countKey (recordKey r₁) (mergedRecords (s1 :: (xs ++ s :: (ys ++ t :: zs)))) := by
  obtain ⟨hm, -⟩ := mergedRecords_closed s1 (xs ++ s :: (ys ++ t :: zs))
  rw [hm]
  unfold countKey
  rw [List.countP_append, List.flatMap_append, List.flatMap_cons, List.flatMap_append,
    List.flatMap_cons, List.countP_append, List.countP_append, List.countP_append,
    List.countP_append]
  have hs : 0 < ((s.getD []).filter
      (fun p => decide (recordKey p ∉ (s1.getD []).map recordKey))).countP
        (fun p => decide (recordKey p = recordKey r₁)) := by
    rw [List.countP_pos_iff]
    exact ⟨r₁, List.mem_filter.mpr ⟨h₁, by simp [hprim]⟩, by simp⟩
  have ht : 0 < ((t.getD []).filter
      (fun p => decide (recordKey p ∉ (s1.getD []).map recordKey))).countP
        (fun p => decide (recordKey p = recordKey r₁)) := by
    rw [List.countP_pos_iff]
    exact ⟨r₂, List.mem_filter.mpr ⟨h₂, by simp [hk, hprim]⟩, by simp [hk]⟩
  omega

/-- C2, witness: a concrete run with a shared key in sources two and three
only, counted twice in the output. -/
theorem mergeC2_witness :
    2 ≤ countKey (recordKey recSecond)
      (mergedRecords [some [recPrimary], some [recSecond], some [recThird]]) :=
  mergeC2_no_cross_secondary_dedup (some [recPrimary]) (some [recSecond]) (some [recThird])
    [] [] [] recSecond recThird (by decide) (by decide) (by decide) (by decide)

/-- C9: a source that cannot be downloaded (none) or yields no parsed
records (some []) leaves the merge state untouched except for a failure
report, processing continues with the remaining sources at the next index,
and a run's merged output with such a source equals the output of the run
where that source contributes an empty record list. -/
theorem mergeC9_failed_source_tolerated (st : MergeState) (i : Nat)
    (rest : List (Option (List Record))) :
    mergeAux st i ((none : Option (List Record)) :: rest) =
      mergeAux { st with reports := st.reports ++ [SourceReport.downloadFailed] } (i + 1) rest ∧
    mergeAux st i (some ([] : List Record) :: rest) =
      mergeAux { st with reports := st.reports ++ [SourceReport.noData] } (i + 1) rest ∧
    ∀ (xs ys : List (Option (List Record))),
      mergedRecords (xs ++ none :: ys) = mergedRecords (xs ++ some [] :: ys) := by
  refine ⟨by simp [mergeAux, processSource], by simp [mergeAux, processSource], ?_⟩
  intro xs ys
  unfold mergedRecords download_multiple_maps_to_csv
  exact mergeAux_failed_vs_empty xs ys initialMergeState 1

/-- C6, counterexample: "1,2,abc" contains a component not parseable as a
float, yet the code returns (2.0, 1.0) - components after the first two are
never examined, so the claim's (null, null) clause is false as stated. -/
theorem parse_coordinatesC6_counterexample :
    parse_coordinates (some "1,2,abc") = (some (2 : ℚ), some (1 : ℚ)) ∧
    parse_coordinates (some "1,2,abc") ≠ ((none : Option ℚ), (none : Option ℚ)) := by
  have h : parse_coordinates (some "1,2,abc") =
      (some (((2 : ℕ) : ℚ) * (10 : ℚ) ^ (0 : ℤ)), some (((1 : ℕ) : ℚ) * (10 : ℚ) ^ (0 : ℤ))) := rfl
  refine ⟨?_, ?_⟩
  · rw [h]; norm_num
  · rw [h]; simp

/-- C6 (amended): the normalizer is total; it returns (none, none) for
missing input, empty or whitespace-only input, fewer than two
comma-separated components, and when either of the first two components
fails float parsing; otherwise it returns the swapped pair - latitude from
the second component, longitude from the first - ignoring any further
components.  The spec's concrete examples hold. -/
theorem parse_coordinatesC6_amended :
    (parse_coordinates none = (none, none)) ∧
    (∀ s : String, stripPyWS s.data = [] → parse_coordinates (some s) = (none, none)) ∧
    (∀ s : String, (splitOnChar ',' (stripPyWS s.data)).length < 2 →
      parse_coordinates (some s) = (none, none)) ∧
    (∀ (s : String) (p0 p1 : List Char) (r : List (List Char)),
      splitOnChar ',' (stripPyWS s.data) = p0 :: p1 :: r →
      pythonFloat p0 = none ∨ pythonFloat p1 = none →
      parse_coordinates (some s) = (none, none)) ∧
    (∀ (s : String) (p0 p1 : List Char) (r : List (List Char)) (la lo : ℚ),
      splitOnChar ',' (stripPyWS s.data) = p0 :: p1 :: r →
      pythonFloat p1 = some la → pythonFloat p0 = some lo →
      parse_coordinates (some s) = (some la, some lo)) ∧
    parse_coordinates (some "121.5,23.6") = (some (23.6 : ℚ), some (121.5 : ℚ)) ∧
    parse_coordinates (some "") = (none, none) ∧
    parse_coordinates (some "abc,def") = (none, none) := by
  refine ⟨rfl, ?_, ?_, ?_, ?_, ?_, by decide, by decide⟩
  · intro s h
    simp [parse_coordinates, h]
  · intro s h
    rcases hsp : splitOnChar ',' (stripPyWS s.data) with _ | ⟨p0, _ | ⟨p1, r⟩⟩
    · cases hE : (stripPyWS s.data).isEmpty <;> simp [parse_coordinates, hE, hsp]
    · cases hE : (stripPyWS s.data).isEmpty <;> simp [parse_coordinates, hE, hsp]
    · rw [hsp] at h
      simp at h
      omega
  · intro s p0 p1 r hsp hf
    have hne : (stripPyWS s.data).isEmpty = false := by
      cases hst : stripPyWS s.data with
      | nil => rw [hst] at hsp; simp [splitOnChar] at hsp
      | cons a l => simp
    rcases hf with hf0 | hf1
    · cases hf1 : pythonFloat p1 <;> simp [parse_coordinates, hne, hsp, hf0, hf1]
    · simp [parse_coordinates, hne, hsp, hf1]
  · intro s p0 p1 r la lo hsp hf1 hf0
    have hne : (stripPyWS s.data).isEmpty = false := by
      cases hst : stripPyWS s.data with
      | nil => rw [hst] at hsp; simp [splitOnChar] at hsp
      | cons a l => simp
    simp [parse_coordinates, hne, hsp, hf1, hf0]
  · have h : parse_coordinates (some "121.5,23.6") =
        (some ((((23 : ℕ) : ℚ) + ((6 : ℕ) : ℚ) / (10 : ℚ) ^ 1) * (10 : ℚ) ^ (0 : ℤ)),
         some ((((121 : ℕ) : ℚ) + ((5 : ℕ) : ℚ) / (10 : ℚ) ^ 1) * (10 : ℚ) ^ (0 : ℤ))) := rfl
    rw [h]
    norm_num

/-- C6 amended, witness: the whitespace-only clause applied at a concrete
input. -/
theorem parse_coordinatesC6_witness : parse_coordinates (some " ") = (none, none) :=
  parse_coordinatesC6_amended.2.1 " " (by decide)

/-- The coordinate pair is all-or-nothing: the normalizer yields either two
nones or two rationals, never a mixed pair. -/
theorem parse_coordinates_pair (t : Option String) :
    parse_coordinates t = (none, none) ∨
    ∃ a b : ℚ, parse_coordinates t = (some a, some b) := by
  cases t with
  | none => exact Or.inl rfl
  | some s =>
    cases hE : (stripPyWS s.data).isEmpty with
    | true => exact Or.inl (by simp [parse_coordinates, hE])
    | false =>
      rcases hsp : splitOnChar ',' (stripPyWS s.data) with _ | ⟨p0, _ | ⟨p1, r⟩⟩
      · exact Or.inl (by simp [parse_coordinates, hE, hsp])
      · exact Or.inl (by simp [parse_coordinates, hE, hsp])
      · cases hf1 : pythonFloat p1 with
        | none => exact Or.inl (by simp [parse_coordinates, hE, hsp, hf1])
        | some la =>
          cases hf0 : pythonFloat p0 with
          | none => exact Or.inl (by simp [parse_coordinates, hE, hsp, hf1, hf0])
          | some lo => exact Or.inr ⟨la, lo, by simp [parse_coordinates, hE, hsp, hf1, hf0]⟩

/-- A tag cannot satisfy both suffix tests of the traversal: ending in
Folder excludes ending in Placemark. -/
theorem folder_not_placemark (t : String) (h : pyEndsWith t "Folder" = true) :
    pyEndsWith t "Placemark" = false := by
  unfold pyEndsWith at h ⊢
  have hF : ("Folder" : String).data.reverse = ['r', 'e', 'd', 'l', 'o', 'F'] := rfl
  have hP : ("Placemark" : String).data.reverse = ['k', 'r', 'a', 'm', 'e', 'c', 'a', 'l', 'P'] := rfl
  rw [hF] at h
  rw [hP]
  cases hl : t.data.reverse with
  | nil => rw [hl] at h; simp [List.isPrefixOf] at h
  | cons c cs =>
    rw [hl] at h
    simp [List.isPrefixOf] at h ⊢
    intro hc
    obtain ⟨h1, -⟩ := h
    rw [← h1] at hc
    simp at hc

/-- Record counting for the traversal, by strong induction on size: an
element contributes its outermost-Placemark count and a child list the sum
over its members. -/
theorem process_count_aux (mid : String) :
    ∀ n : Nat,
      (∀ (e : Element) (path : Option String), sizeOf e ≤ n →
        (process_element mid e path).length = countTopLeaves e) ∧
      (∀ (es : ElementList) (path : Option String), sizeOf es ≤ n →
        (process_children mid es path).length = countTopLeavesList es) := by
  intro n
  induction n with
  | zero =>
    constructor
    · intro e path h
      cases e with
      | mk t tx ch => rw [Element.mk.sizeOf_spec] at h; omega
    · intro es path h
      cases es with
      | nil => rw [ElementList.nil.sizeOf_spec] at h; omega
      | cons c rest => rw [ElementList.cons.sizeOf_spec] at h; omega
  | succ n ih =>
    constructor
    · intro e path h
      cases e with
      | mk t tx ch =>
        have hch : sizeOf ch ≤ n := by
          rw [Element.mk.sizeOf_spec] at h; omega
        cases hF : pyEndsWith t "Folder" with
        | true =>
          have hP := folder_not_placemark t hF
          simp only [process_element, countTopLeaves, hF, hP, if_true, Bool.false_eq_true,
            if_false]
          exact ih.2 ch _ hch
        | false =>
          cases hP : pyEndsWith t "Placemark" with
          | true => simp [process_element, countTopLeaves, hF, hP]
          | false =>
            simp only [process_element, countTopLeaves, hF, hP, Bool.false_eq_true, if_false]
            exact ih.2 ch path hch
    · intro es path h
      cases es with
      | nil => simp [process_children, countTopLeavesList]
      | cons c rest =>
        have hc : sizeOf c ≤ n := by
          rw [ElementList.cons.sizeOf_spec] at h; omega
        have hr : sizeOf rest ≤ n := by
          rw [ElementList.cons.sizeOf_spec] at h; omega
        simp only [process_children, countTopLeavesList, List.length_append]
        rw [ih.1 c path hc, ih.2 rest path hr]

/-- A document consisting of a Placemark node directly containing another
Placemark node. -/
def docNestedPlacemark : Element :=
  Element.mk (kmlTag "Placemark") none
    (.cons (Element.mk (kmlTag "Placemark") none .nil) .nil)

/-- C4, counterexample: this document has two Placemark (leaf) nodes but
the traversal emits one record, because the traversal stops at a Placemark
and never enters its subtree.  The claimed equality with the leaf-node
count fails. -/
theorem traversalC4_counterexample :
    ((extract_placemarks_from_kml ⟨[]⟩ (some docNestedPlacemark) "m").2).length = 1 ∧
    countPlacemarkNodes docNestedPlacemark = 2 ∧
    ((extract_placemarks_from_kml ⟨[]⟩ (some docNestedPlacemark) "m").2).length ≠
      countPlacemarkNodes docNestedPlacemark :=
  ⟨by decide, by decide, by decide⟩

/-- C4 (amended): for every document the number of emitted records equals
the number of outermost Placemark nodes - each Placemark not nested inside
another Placemark yields exactly one record, containers and wrappers yield
none, and nodes inside a Placemark are never visited.  A document that
failed to parse yields zero records. -/
theorem traversalC4_amended (st : KMLParserState) (doc : Option Element) (mid : String) :
    ((extract_placemarks_from_kml st doc mid).2).length =
      (match doc with
       | none => 0
       | some e => countTopLeaves e) := by
  cases doc with
  | none => rfl
  | some e =>
    simp only [extract_placemarks_from_kml]
    exact (process_count_aux mid (sizeOf e)).1 e (some "") (le_refl _)

/-- Coordinate shape for every record the traversal emits, by strong
induction on size: the latitude and longitude fields always come from one
parse_coordinates call (or are both set to none), so they are both none or
both populated. -/
theorem process_coords_aux (mid : String) :
    ∀ n : Nat,
      (∀ (e : Element) (path : Option String) (p : Record), sizeOf e ≤ n →
        p ∈ process_element mid e path →
        (p.latitude = none ∧ p.longitude = none) ∨
        ∃ a b : ℚ, p.latitude = some a ∧ p.longitude = some b) ∧
      (∀ (es : ElementList) (path : Option String) (p : Record), sizeOf es ≤ n →
        p ∈ process_children mid es path →
        (p.latitude = none ∧ p.longitude = none) ∨
        ∃ a b : ℚ, p.latitude = some a ∧ p.longitude = some b) := by
  intro n
  induction n with
  | zero =>
    constructor
    · intro e path p h
      cases e with
      | mk t tx ch => rw [Element.mk.sizeOf_spec] at h; omega
    · intro es path p h
      cases es with
      | nil => rw [ElementList.nil.sizeOf_spec] at h; omega
      | cons c rest => rw [ElementList.cons.sizeOf_spec] at h; omega
  | succ n ih =>
    constructor
    · intro e path p h hp
      cases e with
      | mk t tx ch =>
        have hch : sizeOf ch ≤ n := by
          rw [Element.mk.sizeOf_spec] at h; omega
        cases hF : pyEndsWith t "Folder" with
        | true =>
          rw [process_element] at hp
          simp only [hF, if_true] at hp
          exact ih.2 ch _ p hch hp
        | false =>
          cases hP : pyEndsWith t "Placemark" with
          | true =>
            rw [process_element] at hp
            simp only [hF, hP, Bool.false_eq_true, if_false, if_true, List.mem_singleton] at hp
            subst hp
            cases hd : findDescList (kmlTag "coordinates") ch with
            | none => exact Or.inl (by simp [hd])
            | some c =>
              rcases parse_coordinates_pair c.text with hpair | ⟨a, b, hpair⟩
              · exact Or.inl (by simp [hd, hpair])
              · exact Or.inr ⟨a, b, by simp [hd, hpair]⟩
          | false =>
            rw [process_element] at hp
            simp only [hF, hP, Bool.false_eq_true, if_false] at hp
            exact ih.2 ch path p hch hp
    · intro es path p h hp
      cases es with
      | nil => rw [process_children] at hp; simp at hp
      | cons c rest =>
        have hc : sizeOf c ≤ n := by
          rw [ElementList.cons.sizeOf_spec] at h; omega
        have hr : sizeOf rest ≤ n := by
          rw [ElementList.cons.sizeOf_spec] at h; omega
        rw [process_children] at hp
        rcases List.mem_append.mp hp with hmem | hmem
        · exact ih.1 c path p hc hmem
        · exact ih.2 rest path p hr hmem

/-- A Placemark whose coordinates text is "300,200" - both values outside
the standard geographic ranges. -/
def docOutOfRange : Element :=
  Element.mk (kmlTag "Placemark") none
    (.cons (Element.mk (kmlTag "coordinates") (some "300,200") .nil) .nil)

/-- C3, counterexample: the extractor performs no range validation.  On
coordinates "300,200" it emits latitude 200 and longitude 300, populated
values far outside [-90, 90] and [-180, 180], so the claimed range
invariant is false of the code (the both-or-neither half survives). -/
theorem coordsC3_counterexample :
    ((extract_placemarks_from_kml ⟨[]⟩ (some docOutOfRange) "m").2).map Record.latitude =
      [some (200 : ℚ)] ∧
    ((extract_placemarks_from_kml ⟨[]⟩ (some docOutOfRange) "m").2).map Record.longitude =
      [some (300 : ℚ)] ∧
    ¬ ((200 : ℚ) ≤ 90) ∧ ¬ ((300 : ℚ) ≤ 180) := by
  have h1 : ((extract_placemarks_from_kml ⟨[]⟩ (some docOutOfRange) "m").2).map Record.latitude =
      [some (((200 : ℕ) : ℚ) * (10 : ℚ) ^ (0 : ℤ))] := rfl
  have h2 : ((extract_placemarks_from_kml ⟨[]⟩ (some docOutOfRange) "m").2).map Record.longitude =
      [some (((300 : ℕ) : ℚ) * (10 : ℚ) ^ (0 : ℤ))] := rfl
  refine ⟨?_, ?_, by norm_num, by norm_num⟩
  · rw [h1]; norm_num
  · rw [h2]; norm_num

/-- C3 (amended): every record the extractor emits has latitude and
longitude either both none or both populated rationals; no range check or
clamping is applied to the parsed values. -/
theorem coordsC3_amended (st : KMLParserState) (doc : Option Element) (mid : String)
    (p : Record) (hp : p ∈ (extract_placemarks_from_kml st doc mid).2) :
    (p.latitude = none ∧ p.longitude = none) ∨
    ∃ a b : ℚ, p.latitude = some a ∧ p.longitude = some b := by
  cases doc with
  | none => simp [extract_placemarks_from_kml] at hp
  | some e =>
    simp only [extract_placemarks_from_kml] at hp
    exact (process_coords_aux mid (sizeOf e)).1 e (some "") p (le_refl _) hp

/-- C3 amended, witness: the record emitted for the nested-placemark
document has both coordinates none. -/
theorem coordsC3_amended_witness :
    (({ folder := "根目錄", name := some "", description := "", style_url := some "",
        latitude := none, longitude := none, source := "m" } : Record).latitude = none ∧
     ({ folder := "根目錄", name := some "", description := "", style_url := some "",
        latitude := none, longitude := none, source := "m" } : Record).longitude = none) ∨
    ∃ a b : ℚ,
      ({ folder := "根目錄", name := some "", description := "", style_url := some "",
         latitude := none, longitude := none, source := "m" } : Record).latitude = some a ∧
      ({ folder := "根目錄", name := some "", description := "", style_url := some "",
         latitude := none, longitude := none, source := "m" } : Record).longitude = some b :=
  coordsC3_amended ⟨[]⟩ (some docNestedPlacemark) "m" _ (by decide)

/-- Without a less-than sign there is no CDATA wrapper to substitute. -/
theorem cdataSubFuel_id : ∀ (f : Nat) (cs : List Char), '<' ∉ cs → cdataSubFuel f cs = cs := by
  intro f
  induction f with
  | zero => intro cs h; rfl
  | succ f ih =>
    intro cs h
    cases cs with
    | nil => rfl
    | cons c rest =>
      have hc : ¬ '<' = c := fun hc => h (hc ▸ List.mem_cons_self c rest)
      have hpre : openCDATA.isPrefixOf (c :: rest) = false := by
        simp [openCDATA, List.isPrefixOf]
        intro hc'
        exact absurd hc' hc
      rw [cdataSubFuel, hpre]
      simp only [Bool.false_eq_true, if_false]
      rw [ih rest (fun hm => h (List.mem_cons_of_mem c hm))]

/-- Without a less-than sign there is no tag to remove. -/
theorem stripTagsFuel_id : ∀ (f : Nat) (cs : List Char), '<' ∉ cs → stripTagsFuel f cs = cs := by
  intro f
  induction f with
  | zero => intro cs h; rfl
  | succ f ih =>
    intro cs h
    cases cs with
    | nil => rfl
    | cons c rest =>
      have hc : ¬ c = '<' := fun hc => h (hc ▸ List.mem_cons_self c rest)
      rw [stripTagsFuel, if_neg hc]
      rw [ih rest (fun hm => h (List.mem_cons_of_mem c hm))]

/-- Without an ampersand there is no entity to decode. -/
theorem htmlUnescapeFuel_id : ∀ (f : Nat) (cs : List Char), '&' ∉ cs → htmlUnescapeFuel f cs = cs := by
  intro f
  induction f with
  | zero => intro cs h; rfl
  | succ f ih =>
    intro cs h
    cases cs with
    | nil => rfl
    | cons c rest =>
      have hc : ¬ c = '&' := fun hc => h (hc ▸ List.mem_cons_self c rest)
      rw [htmlUnescapeFuel, if_neg hc]
      rw [ih rest (fun hm => h (List.mem_cons_of_mem c hm))]

/-- C8: the sanitizer maps missing text and the empty string to the empty
string, is total by construction, and on plain text - formalized as text
with no less-than sign (hence no markup tag and no wrapper) and no
ampersand (hence no entity reference) - it changes nothing except
collapsing whitespace runs to single spaces and trimming the ends.  The
spec's example holds. -/
theorem clean_html_tagsC8_plain_text :
    clean_html_tags none = "" ∧
    clean_html_tags (some "") = "" ∧
    clean_html_tags (some "  hello   world  ") = "hello world" ∧
    wsNormalize "  hello   world  " = "hello world" ∧
    (∀ s : String, '<' ∉ s.data → '&' ∉ s.data →
      clean_html_tags (some s) = wsNormalize s) := by
  refine ⟨rfl, rfl, by decide, by decide, ?_⟩
  intro s h1 h2
  have hcd : cdataSub s.data = s.data := cdataSubFuel_id _ _ h1
  have htg : stripTags s.data = s.data := stripTagsFuel_id _ _ h1
  have hun : htmlUnescape s.data = s.data := htmlUnescapeFuel_id _ _ h2
  have hstep : clean_html_tags (some s) =
      (if s.data.isEmpty then ""
       else String.mk (stripPyWS (pySubWS (htmlUnescape (stripTags (cdataSub s.data)))))) := rfl
  have hw : wsNormalize s = String.mk (stripPyWS (pySubWS s.data)) := rfl
  rw [hstep, hw]
  cases hE : s.data.isEmpty with
  | true =>
    have hnil : s.data = [] := List.isEmpty_iff.mp hE
    rw [if_pos rfl, hnil]
    decide
  | false =>
    rw [if_neg (by simp), hcd, htg, hun]

/-- C8, witness: the plain-text clause applied at a concrete string. -/
theorem clean_html_tagsC8_witness :
    clean_html_tags (some "a  b") = wsNormalize "a  b" :=
  clean_html_tagsC8_plain_text.2.2.2.2 "a  b" (by decide) (by decide)

/-- If the close marker occurs nowhere, the marker search fails. -/
theorem splitAtMarker_none : ∀ (cs : List Char), ¬ closeCDATA <:+: cs →
    splitAtMarker closeCDATA cs = none := by
  intro cs
  induction cs with
  | nil => intro h; rfl
  | cons c rest ih =>
    intro h
    have hr : ¬ closeCDATA <:+: rest := fun hin => h (List.infix_cons hin)
    rw [splitAtMarker]
    cases hpre : closeCDATA.isPrefixOf (c :: rest) with
    | true =>
      exact absurd (List.isPrefixOf_iff_prefix.mp hpre).isInfix h
    | false =>
      simp only [Bool.false_eq_true, if_false, ih hr]

/-- When the close marker does not occur in inner, the earliest close
marker of inner ++ close marker is the appended one: the search returns
inner whole with nothing after the match. -/
theorem splitAtMarker_wrap : ∀ (inner : List Char), ¬ closeCDATA <:+: inner →
    splitAtMarker closeCDATA (inner ++ closeCDATA) = some (inner, []) := by
  intro inner
  induction inner with
  | nil => intro h; decide
  | cons c l ih =>
    intro h
    have hl : ¬ closeCDATA <:+: l := fun hin => h (List.infix_cons hin)
    rw [List.cons_append, splitAtMarker]
    cases hpre : closeCDATA.isPrefixOf (c :: (l ++ closeCDATA)) with
    | false =>
      simp only [Bool.false_eq_true, if_false, ih hl]
    | true =>
      exfalso
      cases l with
      | nil => simp [closeCDATA, List.isPrefixOf] at hpre
      | cons c2 l2 =>
        cases l2 with
        | nil => simp [closeCDATA, List.isPrefixOf] at hpre
        | cons c3 l3 =>
          simp [closeCDATA, List.isPrefixOf] at hpre
          obtain ⟨h1, h2, h3⟩ := hpre
          exact h ⟨[], l3, by rw [← h1, ← h2, ← h3]; simp [closeCDATA]⟩

/-- The CDATA substitution leaves the empty text unchanged at any fuel. -/
theorem cdataSubFuel_nil : ∀ f : Nat, cdataSubFuel f [] = [] := by
  intro f
  cases f with
  | zero => rfl
  | succ f => rfl

/-- Text without any close marker has no CDATA match to substitute, at any
fuel. -/
theorem cdataSubFuel_noclose : ∀ (f : Nat) (cs : List Char), ¬ closeCDATA <:+: cs →
    cdataSubFuel f cs = cs := by
  intro f
  induction f with
  | zero => intro cs h; rfl
  | succ f ih =>
    intro cs h
    cases cs with
    | nil => rfl
    | cons c rest =>
      have hr : ¬ closeCDATA <:+: rest := fun hin => h (List.infix_cons hin)
      cases hpre : openCDATA.isPrefixOf (c :: rest) with
      | false =>
        rw [cdataSubFuel]
        simp only [hpre, Bool.false_eq_true, if_false]
        rw [ih rest hr]
      | true =>
        have hd : ¬ closeCDATA <:+: (c :: rest).drop 9 :=
          fun hin => h (hin.trans (List.drop_suffix 9 (c :: rest)).isInfix)
        rw [cdataSubFuel]
        simp only [hpre, if_true, splitAtMarker_none _ hd]
        rw [ih rest hr]

/-- One wrapped block whose content holds no close marker is replaced by
exactly its content. -/
theorem cdataSub_wrap (inner : List Char) (h : ¬ closeCDATA <:+: inner) :
    cdataSub (openCDATA ++ inner ++ closeCDATA) = inner := by
  have hlen : (openCDATA ++ inner ++ closeCDATA).length = (11 + inner.length) + 1 := by
    simp [openCDATA, closeCDATA]
    omega
  have hshape : openCDATA ++ inner ++ closeCDATA =
      '<' :: (['!', '[', 'C', 'D', 'A', 'T', 'A', '['] ++ (inner ++ closeCDATA)) := by
    simp [openCDATA, List.append_assoc]
  have hpre : openCDATA.isPrefixOf
      ('<' :: (['!', '[', 'C', 'D', 'A', 'T', 'A', '['] ++ (inner ++ closeCDATA))) = true := by
    have hsh2 : openCDATA ++ (inner ++ closeCDATA) =
        '<' :: (['!', '[', 'C', 'D', 'A', 'T', 'A', '['] ++ (inner ++ closeCDATA)) := by
      simp [openCDATA]
    rw [← hsh2]
    exact List.isPrefixOf_iff_prefix.mpr (List.prefix_append _ _)
  have hdrop : ('<' :: (['!', '[', 'C', 'D', 'A', 'T', 'A', '['] ++ (inner ++ closeCDATA))).drop 9 =
      inner ++ closeCDATA := rfl
  unfold cdataSub
  rw [hlen, hshape, cdataSubFuel]
  simp only [hpre, if_true, hdrop, splitAtMarker_wrap inner h]
  rw [cdataSubFuel_nil]
  simp

/-- C7, counterexample: on text holding two wrapped blocks around a bare
middle, the code substitutes every wrapper occurrence and keeps the
surrounding text, while a sanitizer that unwraps exactly one outer wrapper
keeping only the inner content yields different output. -/
theorem clean_html_tagsC7_counterexample :
    clean_html_tags (some "<![CDATA[a]]>b<![CDATA[c]]>") = "abc" ∧
    clean_html_tags_claim (some "<![CDATA[a]]>b<![CDATA[c]]>") = "a]]>b<![CDATA[c" ∧
    clean_html_tags (some "<![CDATA[a]]>b<![CDATA[c]]>") ≠
      clean_html_tags_claim (some "<![CDATA[a]]>b<![CDATA[c]]>") :=
  ⟨by decide, by decide, by decide⟩

/-- C7 (amended): before tag removal and entity decoding, the sanitizer
substitutes every leftmost shortest-match CDATA wrapper occurrence by its
inner content, keeping surrounding text; in particular an input that is
exactly one wrapped block (content free of the close marker) sanitizes the
same as its bare content, and the two-block input above flattens to the
concatenation of both contents with the middle kept. -/
theorem clean_html_tagsC7_amended :
    (∀ inner : String, ¬ closeCDATA <:+: inner.data →
      clean_html_tags (some (String.mk (openCDATA ++ inner.data ++ closeCDATA))) =
        clean_html_tags (some inner)) ∧
    clean_html_tags (some "<![CDATA[a]]>b<![CDATA[c]]>") = "abc" := by
  refine ⟨?_, by decide⟩
  intro inner h
  have hC : cdataSub (openCDATA ++ inner.data ++ closeCDATA) = inner.data := cdataSub_wrap _ h
  have hC2 : cdataSub inner.data = inner.data := cdataSubFuel_noclose _ _ h
  have hL : clean_html_tags (some (String.mk (openCDATA ++ inner.data ++ closeCDATA))) =
      (if (openCDATA ++ inner.data ++ closeCDATA).isEmpty then ""
       else String.mk (stripPyWS (pySubWS (htmlUnescape (stripTags
         (cdataSub (openCDATA ++ inner.data ++ closeCDATA))))))) := rfl
  have hR : clean_html_tags (some inner) =
      (if inner.data.isEmpty then ""
       else String.mk (stripPyWS (pySubWS (htmlUnescape (stripTags (cdataSub inner.data)))))) := rfl
  have hne : (openCDATA ++ inner.data ++ closeCDATA).isEmpty = false := by
    simp [openCDATA]
  rw [hL, hR, hne, hC, hC2]
  simp only [Bool.false_eq_true, if_false]
  cases hE : inner.data.isEmpty with
  | true =>
    have hnil : inner.data = [] := List.isEmpty_iff.mp hE
    rw [if_pos rfl, hnil]
    decide
  | false =>
    rw [if_neg (by simp)]

/-- C7 amended, witness: one wrapped block around the single character x. -/
theorem clean_html_tagsC7_witness :
    clean_html_tags (some (String.mk (openCDATA ++ ("x" : String).data ++ closeCDATA))) =
      clean_html_tags (some "x") :=
  clean_html_tagsC7_amended.1 "x" (by decide)

/-- A Folder named A containing a Folder whose name element is present but
textless (an empty name tag), containing one Placemark. -/
def docEmptyFolderName : Element :=
  Element.mk (kmlTag "Folder") none
    (.cons (Element.mk (kmlTag "name") (some "A") .nil)
      (.cons (Element.mk (kmlTag "Folder") none
        (.cons (Element.mk (kmlTag "name") none .nil)
          (.cons (Element.mk (kmlTag "Placemark") none .nil) .nil))) .nil))

/-- C5, failing evaluation: for the document above the emitted record's
folder is "A/None".  ElementTree yields None as the text of an empty name
element, the code's else-"" default covers only an absent element, and the
f-string renders the None into the path, where the claim's path formula
(ancestor container names, an empty name contributing an empty segment)
yields "A/". -/
theorem folderC5_none_leak :
    ((extract_placemarks_from_kml ⟨[]⟩ (some docEmptyFolderName) "m").2).map Record.folder =
      ["A/None"] := by
  decide

/-- C10: extraction resets the accumulated placemark list before the
traversal, so its whole result - the returned state as well as the record
list - depends only on the document and the source id, never on records
left in the parser instance by earlier extractions. -/
theorem extractC10_state_reset (st₁ st₂ : KMLParserState) (doc : Option Element) (mid : String) :
    extract_placemarks_from_kml st₁ doc mid = extract_placemarks_from_kml st₂ doc mid := by
  cases doc <;> rfl
